import Mathlib

/-!
Verification of the OM-JailBot suspension store and lifecycle logic
(`om_jailbot.py`), shallowly embedded in Lean 4.

Modelling conventions:
* SQLite tables are lists of row structures; `INSERT OR REPLACE` keyed by
  a primary key is rendered as "remove the old row, append the new one".
* Stored timestamp strings are modelled by `TimeStr`: either a string that
  `datetime.fromisoformat` parses to an instant (an `Int`, seconds), or an
  unparsable/corrupt value (a `ValueError`/`TypeError` in the source).
* The JSON column holding the prior role ids is modelled by a small `Json`
  value type together with the dump/load functions used by the source.
* Discord-side effects (role mutations, member lookup) are oracles passed
  as parameters: the command handlers only branch on their outcome.
-/

namespace OMJailBot

/-- A stored timestamp: either it parses to an instant (seconds), or it is
corrupt and every attempt to parse it raises. -/
inductive TimeStr where
  | iso : Int → TimeStr
  | bad : TimeStr
deriving DecidableEq, Repr

/-- `datetime.fromisoformat` on a stored value: `none` models the raised
`ValueError`/`TypeError`. -/
def parseTime : TimeStr → Option Int
  | .iso t => some t
  | .bad => none

/-- The JSON values this program stores (arrays of numeric role ids). -/
inductive Json where
  | num : Nat → Json
  | arr : List Json → Json

/-- `json.dumps([role.id for role in previous_roles])`. -/
def json_dumps_ids (roles : List Nat) : Json :=
  .arr (roles.map Json.num)

/-- `json.loads` of a stored role array, read back as a list of ids. -/
def json_loads_ids : Json → List Nat
  | .arr l => l.map fun j => match j with | .num n => n | _ => 0
  | _ => []

/-- A row of the `suspensions` table (`user_id` is the primary key). -/
structure SuspRow where
  user_id : Nat
  guild_id : Nat
  suspended_by : Nat
  start_time : TimeStr
  end_time : TimeStr
  duration_text : String
  previous_roles : Json
  is_active : Bool
  reason : String

/-- A row of the `suspension_logs` audit table. -/
structure LogRow where
  user_id : Nat
  guild_id : Nat
  action : String
  performed_by : Nat
  timestamp : TimeStr
  details : String
deriving DecidableEq, Repr

/-- A row of the `criminal_records` table. -/
structure CRRow where
  id : Nat
  user_id : Nat
  guild_id : Nat
  sentenced_by : Nat
  start_time : TimeStr
  end_time : Option TimeStr
  actual_end_time : Option TimeStr
  duration_text : String
  reason : String
  released_by : Option Nat
  release_type : String
deriving DecidableEq, Repr

/-- The persistent state of the three tables the claims are about. -/
structure DBState where
  suspensions : List SuspRow
  suspension_logs : List LogRow
  criminal_records : List CRRow

/-- `DatabaseManager.get_active_suspension`: the row for `user_id` with
`is_active = 1`, if any. -/
def get_active_suspension (st : DBState) (user_id : Nat) : Option SuspRow :=
  st.suspensions.find? fun r => r.user_id == user_id && r.is_active

/-- `DatabaseManager.add_suspension`: upserts the suspension row keyed by
`user_id` (its `is_active` column takes the schema default `1`), appends one
`SUSPENDED` audit row and one criminal record with `actual_end_time` NULL and
the schema-default `release_type`. -/
def add_suspension (st : DBState) (user_id guild_id suspended_by : Nat)
    (duration_seconds : Int) (duration_text : String)
    (previous_roles : List Nat) (reason : String) (now : Int) : DBState :=
  let start_time := TimeStr.iso now
  let end_time := TimeStr.iso (now + duration_seconds)
  let roles_json := json_dumps_ids previous_roles
  let row : SuspRow :=
    { user_id := user_id, guild_id := guild_id, suspended_by := suspended_by,
      start_time := start_time, end_time := end_time,
      duration_text := duration_text, previous_roles := roles_json,
      is_active := true, reason := reason }
  { suspensions := (st.suspensions.filter fun r => r.user_id != user_id) ++ [row],
    suspension_logs := st.suspension_logs ++
      [{ user_id := user_id, guild_id := guild_id, action := "SUSPENDED",
         performed_by := suspended_by, timestamp := start_time,
         details := "Duration: " ++ duration_text }],
    criminal_records := st.criminal_records ++
      [{ id := st.criminal_records.length, user_id := user_id,
         guild_id := guild_id, sentenced_by := suspended_by,
         start_time := start_time, end_time := some end_time,
         actual_end_time := none, duration_text := duration_text,
         reason := reason, released_by := none,
         release_type := "TIME_SERVED" }] }

/-- `DatabaseManager.get_all_active_suspensions`: rows with `is_active = 1`
whose `end_time` parses and is strictly in the future; rows whose `end_time`
fails to parse are dropped (`continue`). -/
def get_all_active_suspensions (st : DBState) (now : Int) : List SuspRow :=
  (st.suspensions.filter fun r => r.is_active).filter fun r =>
    match parseTime r.end_time with
    | some t => decide (now < t)
    | none => false

/-- `DatabaseManager.get_expired_suspensions`: rows with `is_active = 1`
whose `end_time` parses to an instant `≤ now`, or fails to parse (such a row
is considered expired for safety). -/
def get_expired_suspensions (st : DBState) (now : Int) : List SuspRow :=
  (st.suspensions.filter fun r => r.is_active).filter fun r =>
    match parseTime r.end_time with
    | some t => decide (t ≤ now)
    | none => true

/-- `DatabaseManager.end_suspension`: returns `none` and leaves the state
untouched when no active suspension exists; otherwise flips the active row
to inactive, appends one `RELEASED`/`EXPIRED` audit row, stamps
`actual_end_time`, `released_by` and `release_type` on every criminal record
of the user lacking `actual_end_time`, and returns the pre-mutation row. -/
def end_suspension (st : DBState) (user_id : Nat) (ended_by : Option Nat)
    (now : Int) : DBState × Option SuspRow :=
  match get_active_suspension st user_id with
  | none => (st, none)
  | some suspension =>
    let action := if ended_by.isSome then "RELEASED" else "EXPIRED"
    let current_time := TimeStr.iso now
    let release_type := if ended_by.isSome then "MANUAL_RELEASE" else "TIME_SERVED"
    ({ suspensions := st.suspensions.map fun r =>
         if r.user_id == user_id && r.is_active then
           { r with is_active := false } else r,
       suspension_logs := st.suspension_logs ++
         [{ user_id := user_id, guild_id := suspension.guild_id,
            action := action, performed_by := ended_by.getD 0,
            timestamp := current_time, details := "" }],
       criminal_records := st.criminal_records.map fun r =>
         if r.user_id == user_id && r.actual_end_time.isNone then
           { r with actual_end_time := some current_time,
                    released_by := ended_by, release_type := release_type }
         else r },
     some suspension)

/-- `DatabaseManager.get_previous_roles`: the decoded role ids of the active
suspension, else the empty list. -/
def get_previous_roles (st : DBState) (user_id : Nat) : List Nat :=
  match get_active_suspension st user_id with
  | some suspension => json_loads_ids suspension.previous_roles
  | none => []

/-- The body of the `get_total_time_served` loop: parse `start_time`; pick
`actual_end_time` when truthy, else the scheduled `end_time`; parse it; on
any parse failure skip the record (`continue`); otherwise add the
non-negative clamped difference in seconds. -/
def time_served_step (total : Int) (record : CRRow) : Int :=
  match parseTime record.start_time with
  | none => total
  | some start =>
    let endv : Option Int :=
      match record.actual_end_time with
      | some actual_end => parseTime actual_end
      | none =>
        match record.end_time with
        | some scheduled_end => parseTime scheduled_end
        | none => none
    match endv with
    | none => total
    | some e => total + max 0 (e - start)

/-- `DatabaseManager.get_total_time_served`: the accumulation of
`time_served_step` over the user's criminal records in the guild. -/
def get_total_time_served (st : DBState) (user_id guild_id : Nat) : Int :=
  (st.criminal_records.filter fun r =>
      r.user_id == user_id && r.guild_id == guild_id).foldl time_served_step 0

/-- `convert_duration_to_seconds`: the `duration_map` dictionary lookup with
default `-1`. -/
def duration_map : List (String × Int) :=
  [("1 hour", 1 * 3600),
   ("12 hours", 12 * 3600),
   ("1 day", 24 * 3600),
   ("3 days", 3 * 24 * 3600),
   ("7 days", 7 * 24 * 3600),
   ("30 days", 30 * 24 * 3600)]

def convert_duration_to_seconds (duration : String) : Int :=
  match duration_map.find? fun p => p.1 == duration with
  | some p => p.2
  | none => -1

/-- `format_time_duration`: sub-minute values collapse to a fixed phrase,
otherwise day/hour/minute parts are accumulated, zero parts skipped, and
joined with `", "`. -/
def format_time_duration (seconds : Nat) : String :=
  if seconds < 60 then "Less than a minute"
  else
    let days := seconds / 86400
    let hours := seconds % 86400 / 3600
    let minutes := seconds % 3600 / 60
    let parts : List String := []
    let parts := if days > 0 then
      parts ++ [toString days ++ " day" ++ (if days != 1 then "s" else "")]
      else parts
    let parts := if hours > 0 then
      parts ++ [toString hours ++ " hour" ++ (if hours != 1 then "s" else "")]
      else parts
    let parts := if minutes > 0 then
      parts ++ [toString minutes ++ " minute" ++ (if minutes != 1 then "s" else "")]
      else parts
    String.intercalate ", " parts

/-- Outcome of a Discord role-mutation call (`remove_roles`/`add_roles`). -/
inductive RoleMutationResult where
  | ok
  | forbidden
  | httpError
deriving DecidableEq, Repr

/-- Outcome reported by the `/jail` handler. -/
inductive JailOutcome where
  | alreadyJailed
  | roleNotFound
  | invalidDuration
  | jailed
  | forbidden
  | httpError
deriving DecidableEq, Repr

/-- Outcome reported by the `/unjail` handler. -/
inductive UnjailOutcome where
  | notJailed
  | roleNotFound
  | released
  | forbidden
  | httpError
deriving DecidableEq, Repr

/-- The `/jail` handler (`suspend`): reject when an active suspension
exists, when the suspended role is missing, or when the duration is invalid;
then attempt the role mutations and only on success write to the store. -/
def suspendCmd (st : DBState) (user_id guild_id invoker : Nat)
    (duration : String) (reason : String) (current_roles : List Nat)
    (role_found : Bool) (mutation : RoleMutationResult) (now : Int) :
    DBState × JailOutcome :=
  if (get_active_suspension st user_id).isSome then
    (st, .alreadyJailed)
  else if !role_found then
    (st, .roleNotFound)
  else if convert_duration_to_seconds duration == -1 then
    (st, .invalidDuration)
  else
    match mutation with
    | .ok =>
      (add_suspension st user_id guild_id invoker
        (convert_duration_to_seconds duration) duration current_roles reason now,
       .jailed)
    | .forbidden => (st, .forbidden)
    | .httpError => (st, .httpError)

/-- The `/unjail` handler (`unsuspend`): reject when no active suspension or
the suspended role is missing; a caught `Forbidden`/`HTTPException` during
the role mutations aborts before `end_suspension` is reached. -/
def unsuspendCmd (st : DBState) (user_id invoker : Nat) (role_found : Bool)
    (mutation : RoleMutationResult) (now : Int) : DBState × UnjailOutcome :=
  match get_active_suspension st user_id with
  | none => (st, .notJailed)
  | some _ =>
    if !role_found then (st, .roleNotFound)
    else
      match mutation with
      | .ok => ((end_suspension st user_id (some invoker) now).1, .released)
      | .forbidden => (st, .forbidden)
      | .httpError => (st, .httpError)

/-- One item of the expiry sweep (`check_expired_suspensions` loop body):
skip when the guild is gone; end directly when the member left; otherwise
attempt the role mutations — a raised `Forbidden`/`HTTPException` is caught
and logged, and `end_suspension` runs afterwards in every case. -/
def sweepStep (st : DBState) (user_id : Nat) (guild_found member_present : Bool)
    (mutation : RoleMutationResult) (now : Int) : DBState :=
  if !guild_found then st
  else if !member_present then (end_suspension st user_id none now).1
  else
    match mutation with
    | .ok => (end_suspension st user_id none now).1
    | .forbidden => (end_suspension st user_id none now).1
    | .httpError => (end_suspension st user_id none now).1

/-! ### Spec-side definitions

These follow the wording of the specification, to be compared with the
source-derived functions above. -/

/-- Spec wording for one record's contribution to `total_time_served`:
"(actual_end_time if set, otherwise end_time) minus start_time", clamped to
non-negative, contributing nothing when a timestamp is unparsable. -/
def record_time_served (r : CRRow) : Int :=
  let chosen_end : Option TimeStr :=
    match r.actual_end_time with
    | some actual => some actual
    | none => r.end_time
  match parseTime r.start_time, chosen_end.bind parseTime with
  | some s, some e => max (e - s) 0
  | _, _ => 0

/-- Spec wording for `total_time_served`: the sum of the per-record
contributions over the subject's history in the group. -/
def spec_total_time_served (st : DBState) (user_id guild_id : Nat) : Int :=
  ((st.criminal_records.filter fun r =>
      r.user_id == user_id && r.guild_id == guild_id).map record_time_served).sum

/-- Spec wording for the remaining-time rendering: the value at day, hour
and minute granularity by integer division. -/
def dhm_parts (seconds : Nat) : List (Nat × String) :=
  [(seconds / 86400, "day"), (seconds % 86400 / 3600, "hour"),
   (seconds % 3600 / 60, "minute")]

def render_part (p : Nat × String) : String :=
  toString p.1 ++ " " ++ p.2 ++ (if p.1 != 1 then "s" else "")

/-- Spec wording: render day/hour/minute, omitting every zero-valued unit. -/
def dhm_rendering (seconds : Nat) : String :=
  String.intercalate ", " (((dhm_parts seconds).filter fun p => p.1 != 0).map render_part)

/-! ### Helper lemmas -/

theorem json_round_trip (roles : List Nat) :
    json_loads_ids (json_dumps_ids roles) = roles := by
  induction roles with
  | nil => rfl
  | cons a as ih =>
    simp only [json_dumps_ids, json_loads_ids, List.map_cons] at ih ⊢
    exact congrArg (a :: ·) ih

/-- After the deactivating map of `end_suspension`, no row of the user is
still active. -/
theorem deactivate_find?_none (l : List SuspRow) (u : Nat) :
    (l.map fun r =>
      if r.user_id == u && r.is_active then { r with is_active := false } else r).find?
      (fun r => r.user_id == u && r.is_active) = none := by
  rw [List.find?_eq_none]
  intro x hx
  obtain ⟨r, _, rfl⟩ := List.mem_map.mp hx
  by_cases hc : (r.user_id == u && r.is_active) = true
  · rw [if_pos hc]
    simp
  · rw [if_neg hc]
    exact hc

/-- `end_suspension` never leaves an active suspension for the user behind,
whether or not a mutation happened. -/
theorem end_suspension_get_active (st : DBState) (u : Nat) (eb : Option Nat)
    (now : Int) :
    get_active_suspension (end_suspension st u eb now).1 u = none := by
  unfold end_suspension
  cases hga : get_active_suspension st u with
  | none => exact hga
  | some s => exact deactivate_find?_none st.suspensions u

theorem map_eq_self_of {α : Type} (l : List α) (f : α → α)
    (h : ∀ a ∈ l, f a = a) : l.map f = l := by
  induction l with
  | nil => rfl
  | cons x xs ih =>
    simp only [List.map_cons, h x (List.mem_cons_self x xs)]
    exact congrArg (x :: ·) (ih fun a ha => h a (List.mem_cons_of_mem x ha))

/-! ### Claims -/

/-- C6: Duration resolution is a total pure function: each of the six
enumerated labels maps to its exact fixed second count, and every other
input string maps to the invalid sentinel `-1`. -/
theorem convert_duration_total :
    convert_duration_to_seconds "1 hour" = 3600 ∧
    convert_duration_to_seconds "12 hours" = 43200 ∧
    convert_duration_to_seconds "1 day" = 86400 ∧
    convert_duration_to_seconds "3 days" = 259200 ∧
    convert_duration_to_seconds "7 days" = 604800 ∧
    convert_duration_to_seconds "30 days" = 2592000 ∧
    ∀ s : String, s ≠ "1 hour" → s ≠ "12 hours" → s ≠ "1 day" → s ≠ "3 days" →
      s ≠ "7 days" → s ≠ "30 days" → convert_duration_to_seconds s = -1 := by
  refine ⟨rfl, rfl, rfl, rfl, rfl, rfl, ?_⟩
  intro s h1 h2 h3 h4 h5 h6
  unfold convert_duration_to_seconds
  have hnone : (duration_map.find? fun p => p.1 == s) = none := by
    rw [List.find?_eq_none]
    intro p hp
    simp only [duration_map, List.mem_cons, List.not_mem_nil, or_false] at hp
    rcases hp with rfl | rfl | rfl | rfl | rfl | rfl <;>
      · simp only [beq_iff_eq]
        intro heq
        first
        | exact h1 heq.symm
        | exact h2 heq.symm
        | exact h3 heq.symm
        | exact h4 heq.symm
        | exact h5 heq.symm
        | exact h6 heq.symm
  rw [hnone]

/-- C6 witness: a label outside the enumerated set maps to `-1`. -/
theorem convert_duration_total_witness :
    convert_duration_to_seconds "2 hours" = -1 :=
  convert_duration_total.2.2.2.2.2.2 "2 hours" (by decide) (by decide)
    (by decide) (by decide) (by decide) (by decide)

/-- C8: the prior role ids handed to `add_suspension` are stored as JSON and
decoded back by `get_previous_roles` with no identifier added, dropped or
altered. -/
theorem previous_roles_round_trip (st : DBState) (u g sby : Nat) (secs : Int)
    (dur reason : String) (roles : List Nat) (now : Int) :
    get_previous_roles (add_suspension st u g sby secs dur roles reason now) u
      = roles := by
  unfold get_previous_roles get_active_suspension add_suspension
  simp only [List.find?_append]
  have hleft : ((st.suspensions.filter fun r => r.user_id != u).find?
      fun r => r.user_id == u && r.is_active) = none := by
    rw [List.find?_eq_none]
    intro r hr
    have hne := (List.mem_filter.mp hr).2
    simp only [bne_iff_ne, ne_eq] at hne
    simp [hne]
  rw [hleft]
  simp [json_round_trip]

/-- C3: `get_expired_suspensions` returns a row exactly when it is active
and its `end_time` parses to an instant that is at most `now`, an unparsable
`end_time` counting as expired; in particular an active row with an
unparsable `end_time` is always included. -/
theorem get_expired_characterization (st : DBState) (now : Int) (r : SuspRow) :
    (r ∈ get_expired_suspensions st now ↔
      r ∈ st.suspensions ∧ r.is_active = true ∧
        ∀ t, parseTime r.end_time = some t → t ≤ now) ∧
    (r ∈ st.suspensions → r.is_active = true → parseTime r.end_time = none →
      r ∈ get_expired_suspensions st now) := by
  have hiff : r ∈ get_expired_suspensions st now ↔
      r ∈ st.suspensions ∧ r.is_active = true ∧
        ∀ t, parseTime r.end_time = some t → t ≤ now := by
    unfold get_expired_suspensions
    rw [List.mem_filter, List.mem_filter]
    cases h : parseTime r.end_time <;> simp [h, and_assoc]
  exact ⟨hiff, fun hm ha hp => hiff.mpr ⟨hm, ha, by simp [hp]⟩⟩

/-- C3 witness: an active row with a corrupt `end_time` is reported as
expired. -/
theorem get_expired_characterization_witness :
    ({ user_id := 7, guild_id := 5, suspended_by := 2, start_time := .iso 0,
       end_time := .bad, duration_text := "1 day",
       previous_roles := json_dumps_ids [], is_active := true,
       reason := "" } : SuspRow) ∈
      get_expired_suspensions
        { suspensions :=
            [{ user_id := 7, guild_id := 5, suspended_by := 2,
               start_time := .iso 0, end_time := .bad,
               duration_text := "1 day", previous_roles := json_dumps_ids [],
               is_active := true, reason := "" }],
          suspension_logs := [], criminal_records := [] } 100 :=
  (get_expired_characterization _ 100 _).2 (List.mem_cons_self _ _) rfl rfl

/-- C10: an active row is returned by exactly one of
`get_all_active_suspensions` and `get_expired_suspensions` at a fixed
instant; it counts as active only when its `end_time` parses and lies
strictly in the future, and an unparsably-stamped row is never reported
active. -/
theorem active_expired_partition (st : DBState) (now : Int) (r : SuspRow)
    (hm : r ∈ st.suspensions) (ha : r.is_active = true) :
    (r ∈ get_all_active_suspensions st now ↔
      r ∉ get_expired_suspensions st now) ∧
    (parseTime r.end_time = none → r ∉ get_all_active_suspensions st now) ∧
    (r ∈ get_all_active_suspensions st now ↔
      ∃ t, parseTime r.end_time = some t ∧ now < t) := by
  have hmem_act : r ∈ get_all_active_suspensions st now ↔
      ∃ t, parseTime r.end_time = some t ∧ now < t := by
    unfold get_all_active_suspensions
    rw [List.mem_filter, List.mem_filter]
    cases h : parseTime r.end_time <;> simp [hm, ha, h]
  have hmem_exp : r ∈ get_expired_suspensions st now ↔
      (parseTime r.end_time = none ∨
        ∃ t, parseTime r.end_time = some t ∧ t ≤ now) := by
    unfold get_expired_suspensions
    rw [List.mem_filter, List.mem_filter]
    cases h : parseTime r.end_time <;> simp [hm, ha, h]
  refine ⟨?_, ?_, hmem_act⟩
  · rw [hmem_act, hmem_exp]
    cases h : parseTime r.end_time with
    | none => simp [h]
    | some t => simp [h]
  · intro hnone
    rw [hmem_act]
    rintro ⟨t, ht, _⟩
    rw [hnone] at ht
    cases ht

/-- C10 witness: at instant 100, a not-yet-expired active row is reported by
`get_all_active_suspensions` and not by `get_expired_suspensions`. -/
theorem active_expired_partition_witness :
    ({ user_id := 7, guild_id := 5, suspended_by := 2, start_time := .iso 0,
       end_time := .iso 200, duration_text := "1 day",
       previous_roles := json_dumps_ids [], is_active := true,
       reason := "" } : SuspRow) ∉
      get_expired_suspensions
        { suspensions :=
            [{ user_id := 7, guild_id := 5, suspended_by := 2,
               start_time := .iso 0, end_time := .iso 200,
               duration_text := "1 day", previous_roles := json_dumps_ids [],
               is_active := true, reason := "" }],
          suspension_logs := [], criminal_records := [] } 100 :=
  (active_expired_partition _ 100 _ (List.mem_cons_self _ _) rfl).1.mp
    (by
      unfold get_all_active_suspensions
      simp [List.mem_filter, parseTime])

/-- `end_suspension` with no active suspension: no mutation, `none`. -/
theorem end_suspension_noop (st : DBState) (u : Nat) (eb : Option Nat)
    (now : Int) (h : get_active_suspension st u = none) :
    end_suspension st u eb now = (st, none) := by
  unfold end_suspension
  rw [h]

/-- `end_suspension` with an active suspension: the explicit post-state and
the pre-mutation snapshot. -/
theorem end_suspension_some (st : DBState) (u : Nat) (eb : Option Nat)
    (now : Int) (s : SuspRow) (h : get_active_suspension st u = some s) :
    end_suspension st u eb now =
      ({ suspensions := st.suspensions.map fun r =>
           if r.user_id == u && r.is_active then { r with is_active := false }
           else r,
         suspension_logs := st.suspension_logs ++
           [{ user_id := u, guild_id := s.guild_id,
              action := if eb.isSome then "RELEASED" else "EXPIRED",
              performed_by := eb.getD 0, timestamp := TimeStr.iso now,
              details := "" }],
         criminal_records := st.criminal_records.map fun r =>
           if r.user_id == u && r.actual_end_time.isNone then
             { r with actual_end_time := some (TimeStr.iso now),
                      released_by := eb,
                      release_type :=
                        if eb.isSome then "MANUAL_RELEASE" else "TIME_SERVED" }
           else r },
       some s) := by
  unfold end_suspension
  rw [h]

/-- C2: the first `end` call returns the pre-mutation snapshot and
deactivates the row, an immediately following second call returns `none` and
mutates nothing, and across the two calls exactly one audit entry is
appended, `RELEASED` when `ended_by` is present and `EXPIRED` otherwise. -/
theorem end_suspension_double_release
    (st : DBState) (u : Nat) (eb : Option Nat) (t1 t2 : Int) (s : SuspRow)
    (hact : get_active_suspension st u = some s) :
    (end_suspension st u eb t1).2 = some s ∧
    ({ s with is_active := false } : SuspRow) ∈
      (end_suspension st u eb t1).1.suspensions ∧
    get_active_suspension (end_suspension st u eb t1).1 u = none ∧
    end_suspension (end_suspension st u eb t1).1 u eb t2 =
      ((end_suspension st u eb t1).1, none) ∧
    (end_suspension st u eb t1).1.suspension_logs =
      st.suspension_logs ++
        [{ user_id := u, guild_id := s.guild_id,
           action := if eb.isSome then "RELEASED" else "EXPIRED",
           performed_by := eb.getD 0, timestamp := TimeStr.iso t1,
           details := "" }] := by
  have hnone := end_suspension_get_active st u eb t1
  have hfind : st.suspensions.find? (fun r => r.user_id == u && r.is_active)
      = some s := hact
  have hmem : s ∈ st.suspensions := List.mem_of_find?_eq_some hfind
  have hpred : (s.user_id == u && s.is_active) = true := by
    have h2 := List.find?_some hfind
    simpa using h2
  refine ⟨?_, ?_, hnone, end_suspension_noop _ u eb t2 hnone, ?_⟩
  · rw [end_suspension_some st u eb t1 s hact]
  · rw [end_suspension_some st u eb t1 s hact]
    have hs : ({ s with is_active := false } : SuspRow) =
        (if s.user_id == u && s.is_active then
          ({ s with is_active := false } : SuspRow) else s) := by
      rw [if_pos hpred]
    rw [hs]
    exact List.mem_map_of_mem _ hmem
  · rw [end_suspension_some st u eb t1 s hact]

/-- C2 witness: the concrete double release on a one-row store. -/
def sampleSusp : SuspRow :=
  { user_id := 1, guild_id := 5, suspended_by := 2, start_time := .iso 0,
    end_time := .iso 50, duration_text := "1 hour",
    previous_roles := json_dumps_ids [10, 11], is_active := true,
    reason := "" }

def sampleState : DBState :=
  { suspensions := [sampleSusp], suspension_logs := [],
    criminal_records :=
      [{ id := 0, user_id := 1, guild_id := 5, sentenced_by := 2,
         start_time := .iso 0, end_time := some (.iso 50),
         actual_end_time := none, duration_text := "1 hour", reason := "",
         released_by := none, release_type := "TIME_SERVED" }] }

theorem end_suspension_double_release_witness :
    (end_suspension sampleState 1 (some 9) 60).2 = some sampleSusp ∧
    end_suspension (end_suspension sampleState 1 (some 9) 60).1 1 (some 9) 70 =
      ((end_suspension sampleState 1 (some 9) 60).1, none) :=
  ⟨(end_suspension_double_release sampleState 1 (some 9) 60 70 sampleSusp rfl).1,
   (end_suspension_double_release sampleState 1 (some 9) 60 70 sampleSusp rfl).2.2.2.1⟩

/-- C1: the suspensions table is keyed by the subject id — the key list is
duplicate-free, stays so under `add_suspension` (upsert) and
`end_suspension`, so each subject has at most one active row — and a `jail`
invocation for a subject who already has an active suspension is rejected as
already jailed with the store left completely unchanged. -/
theorem one_active_row_and_jail_reject
    (st : DBState)
    (hnd : (st.suspensions.map fun r => r.user_id).Nodup) :
    (∀ u, (st.suspensions.filter fun r =>
        r.user_id == u && r.is_active).length ≤ 1) ∧
    (∀ u g sby secs dur roles reason now,
      (((add_suspension st u g sby secs dur roles reason now).suspensions.map
        fun r => r.user_id).Nodup)) ∧
    (∀ u eb now,
      ((((end_suspension st u eb now).1).suspensions.map
        fun r => r.user_id).Nodup)) ∧
    (∀ u g invoker dur reason roles role_found mutation now,
      (get_active_suspension st u).isSome = true →
      suspendCmd st u g invoker dur reason roles role_found mutation now =
        (st, .alreadyJailed)) := by
  refine ⟨?_, ?_, ?_, ?_⟩
  · intro u
    match hfil : st.suspensions.filter fun r => r.user_id == u && r.is_active with
    | [] => simp [hfil]
    | [x] => simp [hfil]
    | x :: y :: t =>
      exfalso
      have hsub : List.Sublist ((x :: y :: t).map fun r => r.user_id)
          (st.suspensions.map fun r => r.user_id) := by
        rw [← hfil]
        exact (List.filter_sublist _).map _
      have hnd2 := hsub.nodup hnd
      have hx : x ∈ st.suspensions.filter fun r =>
          r.user_id == u && r.is_active := by
        rw [hfil]; exact List.mem_cons_self _ _
      have hy : y ∈ st.suspensions.filter fun r =>
          r.user_id == u && r.is_active := by
        rw [hfil]; exact List.mem_cons_of_mem _ (List.mem_cons_self _ _)
      have hxu : x.user_id = u := by
        have h2 := (List.mem_filter.mp hx).2
        simp only [Bool.and_eq_true, beq_iff_eq] at h2
        exact h2.1
      have hyu : y.user_id = u := by
        have h2 := (List.mem_filter.mp hy).2
        simp only [Bool.and_eq_true, beq_iff_eq] at h2
        exact h2.1
      rw [List.map_cons, List.map_cons, List.nodup_cons] at hnd2
      apply hnd2.1
      rw [hxu, hyu]
      exact List.mem_cons_self _ _
  · intro u g sby secs dur roles reason now
    unfold add_suspension
    simp only [List.map_append, List.map_cons, List.map_nil]
    rw [List.nodup_append]
    refine ⟨((List.filter_sublist _).map _).nodup hnd,
      List.nodup_singleton _, ?_⟩
    intro a ha hb
    simp only [List.mem_singleton] at hb
    subst hb
    obtain ⟨r, hr, hru⟩ := List.mem_map.mp ha
    have hne := (List.mem_filter.mp hr).2
    simp only [bne_iff_ne, ne_eq] at hne
    exact hne hru
  · intro u eb now
    cases hga : get_active_suspension st u with
    | none =>
      rw [end_suspension_noop st u eb now hga]
      exact hnd
    | some s =>
      rw [end_suspension_some st u eb now s hga]
      simp only [List.map_map]
      have hfun : ((fun r : SuspRow => r.user_id) ∘ fun r =>
          if r.user_id == u && r.is_active then { r with is_active := false }
          else r) = fun r : SuspRow => r.user_id := by
        funext r
        by_cases hc : (r.user_id == u && r.is_active) = true
        · simp [Function.comp, hc]
        · simp [Function.comp, hc]
      rw [hfun]
      exact hnd
  · intro u g invoker dur reason roles role_found mutation now hsome
    unfold suspendCmd
    rw [if_pos hsome]

/-- C1 witness: the second jail call on a concrete one-row store is
rejected and leaves the store unchanged. -/
theorem one_active_row_and_jail_reject_witness :
    suspendCmd sampleState 1 5 3 "1 hour" "again" [] true .ok 10 =
      (sampleState, .alreadyJailed) :=
  (one_active_row_and_jail_reject sampleState (by decide)).2.2.2
    1 5 3 "1 hour" "again" [] true .ok 10 rfl

/-- C5: when `end` succeeds and the subject has exactly one criminal record
lacking `actual_end_time` (the reachable-state invariant: one record per
suspension, closed at release), exactly that record receives
`actual_end_time` and the release fields — `MANUAL_RELEASE` when `ended_by`
is present, `TIME_SERVED` otherwise — and every other criminal record is
left unmodified. -/
theorem end_suspension_updates_unique_record
    (st : DBState) (u : Nat) (eb : Option Nat) (now : Int) (s : SuspRow)
    (r : CRRow) (l1 l2 : List CRRow)
    (hact : get_active_suspension st u = some s)
    (hsplit : st.criminal_records = l1 ++ r :: l2)
    (hru : r.user_id = u) (hrnull : r.actual_end_time = none)
    (hothers : ∀ x ∈ l1 ++ l2, ¬(x.user_id = u ∧ x.actual_end_time = none)) :
    (end_suspension st u eb now).1.criminal_records =
      l1 ++ { r with actual_end_time := some (TimeStr.iso now),
                     released_by := eb,
                     release_type :=
                       if eb.isSome then "MANUAL_RELEASE" else "TIME_SERVED" }
        :: l2 := by
  rw [end_suspension_some st u eb now s hact]
  have hstep : ∀ x ∈ l1 ++ l2,
      (if x.user_id == u && x.actual_end_time.isNone then
        ({ x with actual_end_time := some (TimeStr.iso now),
                  released_by := eb,
                  release_type :=
                    if eb.isSome then "MANUAL_RELEASE" else "TIME_SERVED" } : CRRow)
      else x) = x := by
    intro x hx
    have hnx := hothers x hx
    have hfalse : ¬((x.user_id == u && x.actual_end_time.isNone) = true) := by
      intro hb
      simp only [Bool.and_eq_true, beq_iff_eq, Option.isNone_iff_eq_none] at hb
      exact hnx hb
    rw [if_neg hfalse]
  have hrpos : (r.user_id == u && r.actual_end_time.isNone) = true := by
    simp [hru, hrnull]
  simp only [hsplit, List.map_append, List.map_cons]
  rw [if_pos hrpos,
    map_eq_self_of l1 _ fun x hx => hstep x (List.mem_append_left _ hx),
    map_eq_self_of l2 _ fun x hx => hstep x (List.mem_append_right _ hx)]

/-- C5 witness: with one closed and one open record, only the open record
is stamped, with `MANUAL_RELEASE` for a manual release. -/
def closedRec : CRRow :=
  { id := 0, user_id := 1, guild_id := 5, sentenced_by := 2,
    start_time := .iso 0, end_time := some (.iso 10),
    actual_end_time := some (.iso 8), duration_text := "1 hour", reason := "",
    released_by := some 2, release_type := "MANUAL_RELEASE" }

def openRec : CRRow :=
  { id := 1, user_id := 1, guild_id := 5, sentenced_by := 2,
    start_time := .iso 20, end_time := some (.iso 70),
    actual_end_time := none, duration_text := "1 hour", reason := "",
    released_by := none, release_type := "TIME_SERVED" }

def recSusp : SuspRow :=
  { user_id := 1, guild_id := 5, suspended_by := 2, start_time := .iso 20,
    end_time := .iso 70, duration_text := "1 hour",
    previous_roles := json_dumps_ids [10], is_active := true, reason := "" }

def recState : DBState :=
  { suspensions := [recSusp], suspension_logs := [],
    criminal_records := [closedRec, openRec] }

theorem end_suspension_updates_unique_record_witness :
    (end_suspension recState 1 (some 9) 100).1.criminal_records =
      [closedRec,
       { openRec with actual_end_time := some (TimeStr.iso 100),
                      released_by := some 9,
                      release_type := "MANUAL_RELEASE" }] := by
  have h := end_suspension_updates_unique_record recState 1 (some 9) 100
    recSusp openRec [closedRec] [] rfl rfl rfl rfl (by decide)
  rw [List.singleton_append] at h
  simpa using h

/-- C4 counterexample: during the automatic sweep, a caught platform error
(`Forbidden`) does NOT leave the suspension record active — `end_suspension`
runs unconditionally after the `try/except` block, so the concrete active
suspension is deactivated even though the role mutations failed. -/
theorem sweep_platform_failure_counterexample :
    get_active_suspension sampleState 1 = some sampleSusp ∧
    get_active_suspension (sweepStep sampleState 1 true true .forbidden 100) 1
      = none := by
  exact ⟨rfl, rfl⟩

/-- C4 (amended): a platform role-mutation error during a MANUAL unjail is
caught, `end_suspension` is not invoked and the record stays active for a
retry; during the automatic sweep the error is caught and logged but
`end_suspension` still runs, deactivating the record without the roles
having been restored. -/
theorem release_platform_failure_behavior
    (st : DBState) (u invoker : Nat) (now : Int) (mres : RoleMutationResult)
    (hmut : mres ≠ .ok) (s : SuspRow)
    (hact : get_active_suspension st u = some s) :
    (unsuspendCmd st u invoker true mres now).1 = st ∧
    get_active_suspension (unsuspendCmd st u invoker true mres now).1 u
      = some s ∧
    sweepStep st u true true mres now = (end_suspension st u none now).1 ∧
    get_active_suspension (sweepStep st u true true mres now) u = none := by
  cases mres with
  | ok => exact absurd rfl hmut
  | forbidden =>
    refine ⟨?_, ?_, ?_, ?_⟩
    · unfold unsuspendCmd
      rw [hact]
      rfl
    · unfold unsuspendCmd
      rw [hact]
      exact hact
    · rfl
    · show get_active_suspension (end_suspension st u none now).1 u = none
      exact end_suspension_get_active st u none now
  | httpError =>
    refine ⟨?_, ?_, ?_, ?_⟩
    · unfold unsuspendCmd
      rw [hact]
      rfl
    · unfold unsuspendCmd
      rw [hact]
      exact hact
    · rfl
    · show get_active_suspension (end_suspension st u none now).1 u = none
      exact end_suspension_get_active st u none now

/-- C4 (amended) witness: the concrete behavior at a `Forbidden` error. -/
theorem release_platform_failure_behavior_witness :
    (unsuspendCmd sampleState 1 3 true .forbidden 100).1 = sampleState ∧
    get_active_suspension (sweepStep sampleState 1 true true .forbidden 100) 1
      = none :=
  ⟨(release_platform_failure_behavior sampleState 1 3 100 .forbidden
      (by decide) sampleSusp rfl).1,
   (release_platform_failure_behavior sampleState 1 3 100 .forbidden
      (by decide) sampleSusp rfl).2.2.2⟩

/-- The loop body of `get_total_time_served` adds exactly the spec-side
per-record contribution. -/
theorem time_served_step_eq (total : Int) (record : CRRow) :
    time_served_step total record = total + record_time_served record := by
  unfold time_served_step record_time_served
  cases hs : parseTime record.start_time with
  | none => simp [hs]
  | some start =>
    cases hae : record.actual_end_time with
    | some ae =>
      cases hp : parseTime ae <;> simp [hs, hae, hp, max_comm]
    | none =>
      cases he : record.end_time with
      | none => simp [hs, hae, he]
      | some se =>
        cases hp : parseTime se <;> simp [hs, hae, he, hp, max_comm]

theorem time_served_foldl (l : List CRRow) (acc : Int) :
    l.foldl time_served_step acc = acc + (l.map record_time_served).sum := by
  induction l generalizing acc with
  | nil => simp
  | cons x xs ih =>
    rw [List.foldl_cons, ih, List.map_cons, List.sum_cons,
      time_served_step_eq, Int.add_assoc]

/-- C7: `get_total_time_served` equals the spec-side sum over the subject's
history of (actual end, or scheduled end when not released) minus start,
each record clamped to a non-negative contribution and unparsable records
contributing nothing. -/
theorem total_time_served_spec (st : DBState) (u g : Nat) :
    get_total_time_served st u g = spec_total_time_served st u g := by
  unfold get_total_time_served spec_total_time_served
  rw [time_served_foldl]
  simp

/-! ### Decimal-rendering facts used for the remaining-time formatter -/

theorem digitChar_isDigit (m : Nat) (h : m < 10) :
    (Nat.digitChar m).isDigit = true := by
  interval_cases m <;> rfl

theorem toDigitsCore_head_digit (fuel : Nat) :
    ∀ (n : Nat) (ds : List Char), ∃ c cs,
      Nat.toDigitsCore 10 (fuel + 1) n ds = c :: cs ∧ c.isDigit = true := by
  induction fuel with
  | zero =>
    intro n ds
    by_cases h10 : n / 10 = 0
    · refine ⟨Nat.digitChar (n % 10), ds, ?_,
        digitChar_isDigit _ (Nat.mod_lt _ (by decide))⟩
      simp only [Nat.toDigitsCore]
      rw [if_pos h10]
    · refine ⟨Nat.digitChar (n % 10), ds, ?_,
        digitChar_isDigit _ (Nat.mod_lt _ (by decide))⟩
      simp only [Nat.toDigitsCore]
      rw [if_neg h10]
  | succ f ih =>
    intro n ds
    by_cases h10 : n / 10 = 0
    · refine ⟨Nat.digitChar (n % 10), ds, ?_,
        digitChar_isDigit _ (Nat.mod_lt _ (by decide))⟩
      simp only [Nat.toDigitsCore]
      rw [if_pos h10]
    · obtain ⟨c, cs, hc, hdig⟩ := ih (n / 10) (Nat.digitChar (n % 10) :: ds)
      refine ⟨c, cs, ?_, hdig⟩
      simp only [Nat.toDigitsCore]
      rw [if_neg h10]
      exact hc

/-- The decimal rendering of a natural number starts with a digit. -/
theorem toString_nat_head_digit (n : Nat) :
    ∃ c cs, (toString n).data = c :: cs ∧ c.isDigit = true := by
  obtain ⟨c, cs, hc, hdig⟩ := toDigitsCore_head_digit n n []
  refine ⟨c, cs, ?_, hdig⟩
  show (Nat.repr n).data = c :: cs
  unfold Nat.repr Nat.toDigits
  have hAs : ∀ l : List Char, l.asString.data = l := fun l => rfl
  rw [hAs]
  exact hc

theorem intercalate_go_prefix (l : List String) :
    ∀ (acc s : String), ∃ t, String.intercalate.go acc s l = acc ++ t := by
  induction l with
  | nil =>
    intro acc s
    exact ⟨"", (String.append_empty acc).symm⟩
  | cons a as ih =>
    intro acc s
    obtain ⟨t, ht⟩ := ih (acc ++ s ++ a) s
    refine ⟨s ++ (a ++ t), ?_⟩
    show String.intercalate.go (acc ++ s ++ a) s as = _
    rw [ht]
    simp [String.append_assoc]

theorem intercalate_prefix (p : String) (rest : List String) (s : String) :
    ∃ t, String.intercalate s (p :: rest) = p ++ t := by
  show ∃ t, String.intercalate.go p s rest = p ++ t
  exact intercalate_go_prefix rest p s

/-- A joined parts list whose head starts with a rendered number can never
be the fixed sub-minute phrase. -/
theorem intercalate_num_head_ne (v : Nat) (b1 b2 b3 : String)
    (rest : List String) :
    String.intercalate ", " ((toString v ++ b1 ++ b2 ++ b3) :: rest) ≠
      "Less than a minute" := by
  obtain ⟨t, ht⟩ := intercalate_prefix (toString v ++ b1 ++ b2 ++ b3) rest ", "
  rw [ht]
  intro heq
  have hdata := congrArg String.data heq
  obtain ⟨c, cs, hc, hdig⟩ := toString_nat_head_digit v
  simp only [String.data_append, List.append_assoc, hc, List.cons_append]
    at hdata
  have hcL : c = 'L' := (List.cons.inj hdata).1
  rw [hcL] at hdig
  exact absurd hdig (by decide)

theorem append_space_day (a : String) : a ++ " " ++ "day" = a ++ " day" := by
  rw [String.append_assoc]
  rfl

theorem append_space_hour (a : String) : a ++ " " ++ "hour" = a ++ " hour" := by
  rw [String.append_assoc]
  rfl

theorem append_space_minute (a : String) :
    a ++ " " ++ "minute" = a ++ " minute" := by
  rw [String.append_assoc]
  rfl

/-- C9: the formatter returns "Less than a minute" exactly when the input is
below 60 seconds, and otherwise renders the value at day/hour/minute
granularity by integer division with every zero-valued unit omitted. -/
theorem format_time_duration_spec (s : Nat) :
    (format_time_duration s = "Less than a minute" ↔ s < 60) ∧
    (60 ≤ s → format_time_duration s = dhm_rendering s) := by
  by_cases h : s < 60
  · refine ⟨⟨fun _ => h, fun _ => ?_⟩, fun h60 => absurd h (by omega)⟩
    unfold format_time_duration
    rw [if_pos h]
  · have heq : format_time_duration s = dhm_rendering s := by
      unfold format_time_duration dhm_rendering dhm_parts
      rw [if_neg h]
      by_cases hd : s / 86400 = 0 <;> by_cases hh : s % 86400 / 3600 = 0 <;>
          by_cases hm2 : s % 3600 / 60 = 0 <;>
        simp [hd, hh, hm2, Nat.pos_iff_ne_zero, render_part,
          append_space_day, append_space_hour, append_space_minute]
    have hne : dhm_rendering s ≠ "Less than a minute" := by
      unfold dhm_rendering dhm_parts
      by_cases hd : s / 86400 = 0 <;> by_cases hh : s % 86400 / 3600 = 0 <;>
        by_cases hm2 : s % 3600 / 60 = 0
      all_goals
        try (simp [hd, hh, hm2, render_part]; exact intercalate_num_head_ne _ _ _ _ _)
      · exfalso
        have h1 : s < 86400 := (Nat.div_eq_zero_iff (by decide)).mp hd
        rw [Nat.mod_eq_of_lt h1] at hh
        have h2 : s < 3600 := (Nat.div_eq_zero_iff (by decide)).mp hh
        rw [Nat.mod_eq_of_lt h2] at hm2
        have h3 : s < 60 := (Nat.div_eq_zero_iff (by decide)).mp hm2
        exact h h3
    exact ⟨⟨fun habs => absurd (heq.symm.trans habs) hne,
      fun hlt => absurd hlt h⟩, fun _ => heq⟩

/-- C9 witness: one day plus one minute is rendered per the spec wording. -/
theorem format_time_duration_spec_witness :
    60 ≤ 86460 ∧ format_time_duration 86460 = dhm_rendering 86460 :=
  ⟨by decide, (format_time_duration_spec 86460).2 (by decide)⟩

end OMJailBot
